import Mathlib

/-!
Verification of the Quresis core: the TypeScript SDK under `sdk/src`
(keypair construction, hex serialization, account parsing, instruction
building, canonical authorization messages) embedded shallowly, together
with the on-chain Identity Registry and Enforcement Engine state machines
modelled from the specification (the Rust programs are not part of the
sources at hand; only their interface, tests and documentation are).

Bytes are `Nat` values; byte buffers are `List Nat`; 64-bit arithmetic is
explicit (`% 2 ^ 64`); fallible reads return `Except`.
-/

/-- Little-endian encoding of `n` into `w` bytes, least significant first
(higher bits beyond `w` bytes are discarded, as a `w`-byte store does). -/
def leEncode : Nat → Nat → List Nat
  | 0, _ => []
  | w + 1, n => n % 256 :: leEncode w (n / 256)

/-- Value of a byte list read as a little-endian unsigned integer. -/
def leDecode : List Nat → Nat
  | [] => 0
  | b :: bs => b + 256 * leDecode bs

/-- Overwrite `buf` with `src` starting at `off`: the semantics of
`TypedArray.set(src, off)` / sequential `Buffer` writes for in-range
arguments (all uses below stay in range). -/
def setBytes (buf src : List Nat) (off : Nat) : List Nat :=
  buf.take off ++ src ++ buf.drop (off + src.length)

/-- Byte values of the string `'QURESIS_KEY_ROTATION_V1:'` that
`createRotationMessage` places in front of the payload
(`TextEncoder.encode` on an ASCII string yields the code points). -/
def rotationDomainTag : List Nat := "QURESIS_KEY_ROTATION_V1:".toList.map Char.toNat

/-- Byte values of the string `'QURESIS_TRANSFER_V1:'` that
`createTransferMessage` places in front of the payload. -/
def transferDomainTag : List Nat := "QURESIS_TRANSFER_V1:".toList.map Char.toNat

/-- `QuresisSigner.createRotationMessage` (sdk/src/signer.ts): allocates a
zeroed buffer of the total size and writes the tag, the 8-byte
little-endian sequence (`DataView.setBigUint64` stores the value modulo
`2 ^ 64`), and the new public key at increasing offsets. -/
def createRotationMessage (newPublicKey : List Nat) (sequence : Nat) : List Nat :=
  let seqBytes := leEncode 8 (sequence % 2 ^ 64)
  let message := List.replicate (rotationDomainTag.length + seqBytes.length + newPublicKey.length) 0
  setBytes (setBytes (setBytes message rotationDomainTag 0) seqBytes rotationDomainTag.length)
    newPublicKey (rotationDomainTag.length + seqBytes.length)

/-- `QuresisSigner.createTransferMessage` (sdk/src/signer.ts): zeroed
buffer, then tag, 8-byte little-endian amount, destination bytes and
8-byte little-endian sequence written at increasing offsets. -/
def createTransferMessage (amount : Nat) (destination : List Nat) (sequence : Nat) : List Nat :=
  let amountBytes := leEncode 8 (amount % 2 ^ 64)
  let seqBytes := leEncode 8 (sequence % 2 ^ 64)
  let message := List.replicate
    (transferDomainTag.length + amountBytes.length + destination.length + seqBytes.length) 0
  setBytes
    (setBytes (setBytes (setBytes message transferDomainTag 0) amountBytes transferDomainTag.length)
      destination (transferDomainTag.length + amountBytes.length))
    seqBytes (transferDomainTag.length + amountBytes.length + destination.length)

/-- Error raised by a fixed-width `Buffer` read past the end of the data
(`ERR_OUT_OF_RANGE` in Node). -/
inductive ParseErr where
  | outOfRange
  deriving DecidableEq, Repr

/-- `QuantumIdentity` (sdk/src/types.ts): the decoded identity account. -/
structure QuantumIdentity where
  authority : List Nat
  bump : Nat
  sequence : Nat
  lastActiveSlot : Nat
  createdAt : Int
  isFrozen : Bool
  thresholdAmount : Nat
  keyVersion : Nat
  pqcPublicKey : List Nat
  deriving DecidableEq, Repr

/-- Unsigned little-endian fixed-width `Buffer` read (`readBigUInt64LE`,
`readUInt32LE`, `readUInt16LE`): throws when `off + w` passes the end of
the buffer, as Node's bounds check does. -/
def readUIntLE (data : List Nat) (off w : Nat) : Except ParseErr Nat :=
  if off + w ≤ data.length then .ok (leDecode ((data.drop off).take w))
  else .error .outOfRange

/-- `Buffer.readBigInt64LE`: the unsigned 8-byte read reinterpreted as a
two's-complement signed value. -/
def readInt64LE (data : List Nat) (off : Nat) : Except ParseErr Int :=
  (readUIntLE data off 8).map fun u => if u < 2 ^ 63 then (u : Int) else (u : Int) - 2 ^ 64

/-- `QuresisClient.parseQuantumIdentity` (sdk/src/client.ts): skips the
8-byte discriminator without comparing it, then reads the fields at fixed
offsets. `subarray` and direct indexing clamp silently (hence `take` /
`getD`), while the fixed-width reads throw past the end of the buffer;
the reads happen in source order. -/
def parseQuantumIdentity (data : List Nat) : Except ParseErr QuantumIdentity :=
  match readUIntLE data 41 8 with
  | .error e => .error e
  | .ok sequence =>
  match readUIntLE data 49 8 with
  | .error e => .error e
  | .ok lastActiveSlot =>
  match readInt64LE data 57 with
  | .error e => .error e
  | .ok createdAt =>
  match readUIntLE data 66 8 with
  | .error e => .error e
  | .ok thresholdAmount =>
  match readUIntLE data 74 2 with
  | .error e => .error e
  | .ok keyVersion =>
  match readUIntLE data 76 4 with
  | .error e => .error e
  | .ok keyLen =>
    .ok { authority := (data.drop 8).take 32
          bump := data.getD 40 0
          sequence := sequence
          lastActiveSlot := lastActiveSlot
          createdAt := createdAt
          isFrozen := data.getD 65 0 == 1
          thresholdAmount := thresholdAmount
          keyVersion := keyVersion
          pqcPublicKey := (data.drop 80).take keyLen }

/-- `QuresisClient.getIdentity` (sdk/src/client.ts) after the account
fetch: a missing account or empty account data yields `none` (the
"absent" outcome); any other data is handed to the parser. -/
def getIdentity (account : Option (List Nat)) : Except ParseErr (Option QuantumIdentity) :=
  match account with
  | none => .ok none
  | some data =>
      if data.length = 0 then .ok none
      else (parseQuantumIdentity data).map some

/-- Modelled from the spec: the §6 binary layout of an IdentityRecord —
`[0:8)` type tag, `[8:40)` authority, `[40:41)` bump, `[41:49)` sequence,
`[49:57)` lastActiveSlot, `[57:65)` createdAt (signed), `[65:66)`
isFrozen, `[66:74)` thresholdAmount, `[74:76)` keyVersion, `[76:80)`
keyMaterial length, `[80:80+len)` keyMaterial — as an encoder producing a
well-formed buffer from field values, to be compared with the decoder
`parseQuantumIdentity` taken from the source. -/
def layoutEncode (tag authority : List Nat) (bump sequence lastActiveSlot : Nat)
    (createdAt : Int) (isFrozen : Bool) (thresholdAmount keyVersion : Nat)
    (keyMaterial : List Nat) : List Nat :=
  tag ++ authority ++ [bump] ++ leEncode 8 sequence ++ leEncode 8 lastActiveSlot ++
    leEncode 8 (createdAt.emod (2 ^ 64)).toNat ++ [if isFrozen then 1 else 0] ++
    leEncode 8 thresholdAmount ++ leEncode 2 keyVersion ++ leEncode 4 keyMaterial.length ++
    keyMaterial

/-- `DEFAULTS.threshold` (sdk/src/constants.ts): 100 SOL in lamports. -/
def defaultThresholdLamports : Nat := 100000000000

/-- Anchor instruction discriminator hard-coded in
`buildRegisterIdentityInstruction` (sdk/src/client.ts). -/
def registerIdentityDisc : List Nat := [175, 176, 141, 171, 210, 183, 107, 119]

/-- `Buffer.writeUInt8`: bounds- and range-checked single-byte store
(`none` models the throw). -/
def writeUInt8 (buf : List Nat) (v off : Nat) : Option (List Nat) :=
  if v < 256 ∧ off + 1 ≤ buf.length then some (setBytes buf [v] off) else none

/-- `Buffer.writeBigUInt64LE`: bounds- and range-checked 8-byte
little-endian store. -/
def writeBigUInt64LE (buf : List Nat) (v off : Nat) : Option (List Nat) :=
  if v < 2 ^ 64 ∧ off + 8 ≤ buf.length then some (setBytes buf (leEncode 8 v) off) else none

/-- `Buffer.writeUInt32LE`: bounds- and range-checked 4-byte
little-endian store. -/
def writeUInt32LE (buf : List Nat) (v off : Nat) : Option (List Nat) :=
  if v < 2 ^ 32 ∧ off + 4 ≤ buf.length then some (setBytes buf (leEncode 4 v) off) else none

/-- Instruction data built by `buildRegisterIdentityInstruction`
(sdk/src/client.ts): the discriminator, a 4-byte little-endian key
length, the key bytes, then the 9-byte threshold buffer written as the
tag byte 1 (the `Some` variant) followed by the 8-byte little-endian
threshold; a missing threshold argument defaults to `DEFAULTS.threshold`
via the parameter default. -/
def buildRegisterIdentityData (pqcPublicKey : List Nat) (threshold : Option Nat) :
    Option (List Nat) :=
  match writeUInt8 (List.replicate 9 0) 1 0 with
  | none => none
  | some tb0 =>
  match writeBigUInt64LE tb0 (threshold.getD defaultThresholdLamports) 1 with
  | none => none
  | some thresholdBuffer =>
  match writeUInt32LE (List.replicate 4 0) pqcPublicKey.length 0 with
  | none => none
  | some keyLenBuffer =>
    some (registerIdentityDisc ++ keyLenBuffer ++ pqcPublicKey ++ thresholdBuffer)

/-- Lowercase hexadecimal digit characters as produced by
`Number.prototype.toString(16)`. -/
def hexDigit (n : Nat) : Char :=
  if n < 10 then Char.ofNat (48 + n) else Char.ofNat (87 + n)

/-- `bufferToHex` (sdk/src/utils.ts): every byte becomes two lowercase
hex digits (`toString(16)` left-padded to width 2 with `'0'`). -/
def bufferToHex : List Nat → List Char
  | [] => []
  | b :: bs => hexDigit (b / 16) :: hexDigit (b % 16) :: bufferToHex bs

/-- Numeric value `parseInt(·, 16)` assigns to one hex digit character
(both cases accepted); `none` for a non-digit. -/
def hexVal (ch : Char) : Option Nat :=
  if 48 ≤ ch.toNat ∧ ch.toNat ≤ 57 then some (ch.toNat - 48)
  else if 97 ≤ ch.toNat ∧ ch.toNat ≤ 102 then some (ch.toNat - 87)
  else if 65 ≤ ch.toNat ∧ ch.toNat ≤ 70 then some (ch.toNat - 55)
  else none

/-- `parseInt(chunk, 16)` on a two-character chunk, coerced to a byte the
way a `Uint8Array` store coerces it: an invalid first digit gives `NaN`,
stored as 0; a valid first digit followed by an invalid one parses the
one digit. -/
def parseIntPair (c1 c2 : Char) : Nat :=
  match hexVal c1, hexVal c2 with
  | some v1, some v2 => 16 * v1 + v2
  | some v1, none => v1
  | none, _ => 0

/-- Successive two-character chunks of the hex string, one byte each
(`Math`-floor division of the length leaves a dangling odd character
unread). -/
def hexPairs : List Char → List Nat
  | c1 :: c2 :: rest => parseIntPair c1 c2 :: hexPairs rest
  | _ => []

/-- `hexToBuffer` (sdk/src/utils.ts): strips a leading `0x`, then parses
two-character chunks. -/
def hexToBuffer (hex : List Char) : List Nat :=
  hexPairs (if hex.take 2 = ['0', 'x'] then hex.drop 2 else hex)

/-- `MLDSAVariant` (sdk/src/types.ts). -/
inductive MLDSAVariant where
  | mldsa44
  | mldsa65
  deriving DecidableEq, Repr

/-- `ML_DSA_CONSTANTS[variant].publicKeySize` (sdk/src/constants.ts). -/
def publicKeySize : MLDSAVariant → Nat
  | .mldsa44 => 1312
  | .mldsa65 => 1952

/-- `ML_DSA_CONSTANTS[variant].secretKeySize` (sdk/src/constants.ts). -/
def secretKeySize : MLDSAVariant → Nat
  | .mldsa44 => 2560
  | .mldsa65 => 4032

/-- `QuresisKeyPair` (sdk/src/keypair.ts): the validated field content. -/
structure QuresisKeyPair where
  variant : MLDSAVariant
  publicKey : List Nat
  secretKey : List Nat
  createdAt : Int
  deriving DecidableEq, Repr

/-- Errors thrown by the `QuresisKeyPair` constructor. -/
inductive KeyPairErr where
  | invalidPublicKeySize
  | invalidSecretKeySize
  deriving DecidableEq, Repr

/-- The private `QuresisKeyPair` constructor (sdk/src/keypair.ts):
validates both key sizes against the variant's constants and throws on a
mismatch (public key checked first). -/
def QuresisKeyPair.create (variant : MLDSAVariant) (publicKey secretKey : List Nat)
    (createdAt : Int) : Except KeyPairErr QuresisKeyPair :=
  if publicKey.length ≠ publicKeySize variant then .error .invalidPublicKeySize
  else if secretKey.length ≠ secretKeySize variant then .error .invalidSecretKeySize
  else .ok ⟨variant, publicKey, secretKey, createdAt⟩

/-- `SerializedKeyPair` (sdk/src/keypair.ts). -/
structure SerializedKeyPair where
  variant : MLDSAVariant
  publicKeyHex : List Char
  secretKeyHex : List Char
  createdAt : Int
  label : Option (List Char)
  deriving DecidableEq, Repr

/-- `QuresisKeyPair.serialize` (sdk/src/keypair.ts). -/
def QuresisKeyPair.serialize (kp : QuresisKeyPair) (label : Option (List Char)) :
    SerializedKeyPair :=
  ⟨kp.variant, bufferToHex kp.publicKey, bufferToHex kp.secretKey, kp.createdAt, label⟩

/-- `QuresisKeyPair.fromSerialized` (sdk/src/keypair.ts): decodes the hex
fields and re-runs the validating constructor. -/
def QuresisKeyPair.fromSerialized (s : SerializedKeyPair) : Except KeyPairErr QuresisKeyPair :=
  QuresisKeyPair.create s.variant (hexToBuffer s.publicKeyHex) (hexToBuffer s.secretKeyHex)
    s.createdAt

/-- Well-formedness of a keypair value: the invariant the validating
constructor establishes, together with the `Uint8Array` byte range. -/
def QuresisKeyPair.WF (kp : QuresisKeyPair) : Prop :=
  kp.publicKey.length = publicKeySize kp.variant ∧
  kp.secretKey.length = secretKeySize kp.variant ∧
  (∀ b ∈ kp.publicKey, b < 256) ∧ (∀ b ∈ kp.secretKey, b < 256)

/-- Error taxonomy of the on-chain programs (§6). -/
inductive QuresisError where
  | invalidKeyLength
  | invalidQuantumSignature
  | identityFrozen
  | sequenceMismatch
  | quantumSignatureRequired
  deriving DecidableEq, Repr

/-- Modelled from the spec: the on-chain IdentityRecord owned by the
Identity Registry (§3); the Rust program itself is not among the sources,
only its interface, tests and documentation. -/
structure IdentityRecord where
  keyMaterial : List Nat
  sequence : Nat
  keyVersion : Nat
  isFrozen : Bool
  thresholdAmount : Nat
  deriving DecidableEq, Repr

/-- Supported post-quantum public key sizes (§3; `ML_DSA_CONSTANTS`). -/
def supportedKeySizes : List Nat := [1312, 1952]

/-- Modelled from the spec: `register_identity` (§4.1) — the key length
is checked before any state is created; on success the fresh record has
`sequence = 0`, `keyVersion = 0`, `isFrozen = false`, and the optional
threshold defaulted. -/
def register_identity (keyMaterial : List Nat) (optionalThreshold : Option Nat) :
    Except QuresisError IdentityRecord :=
  if keyMaterial.length ∈ supportedKeySizes then
    .ok { keyMaterial := keyMaterial
          sequence := 0
          keyVersion := 0
          isFrozen := false
          thresholdAmount := optionalThreshold.getD defaultThresholdLamports }
  else .error .invalidKeyLength

/-- Modelled from the spec: the canonical rotation authorization message
of §4.1 (the SDK builds identical bytes, see `rotation_message_layout`). -/
def rotationMessage (expectedSequence : Nat) (newKeyMaterial : List Nat) : List Nat :=
  rotationDomainTag ++ leEncode 8 expectedSequence ++ newKeyMaterial

/-- Modelled from the spec: `rotate_key` (§4.1), preconditions in the
spec's order — record not frozen, `expectedSequence` equal to the current
`sequence`, new key length supported, and the proof verifying against
the current (pre-rotation) `keyMaterial` over the canonical message;
`verifies` is the external signature primitive of §6. -/
def rotate_key (record : IdentityRecord)
    (verifies : List Nat → List Nat → List Nat → Bool)
    (newKeyMaterial proofSignature : List Nat) (expectedSequence : Nat) :
    Except QuresisError IdentityRecord :=
  if record.isFrozen then .error .identityFrozen
  else if expectedSequence ≠ record.sequence then .error .sequenceMismatch
  else if newKeyMaterial.length ∉ supportedKeySizes then .error .invalidKeyLength
  else if verifies record.keyMaterial (rotationMessage expectedSequence newKeyMaterial)
      proofSignature then
    .ok { record with
          keyMaterial := newKeyMaterial
          sequence := record.sequence + 1
          keyVersion := record.keyVersion + 1 }
  else .error .invalidQuantumSignature

/-- Modelled from the spec: atomic commit or full rollback (§5) — the
stored record after a `rotate_key` attempt is the new record on success
and the unchanged one on failure. -/
def rotateKeyResultState (record : IdentityRecord)
    (verifies : List Nat → List Nat → List Nat → Bool)
    (newKeyMaterial proofSignature : List Nat) (expectedSequence : Nat) : IdentityRecord :=
  match rotate_key record verifies newKeyMaterial proofSignature expectedSequence with
  | .ok r => r
  | .error _ => record

/-- `EnforcementMode` (sdk/src/types.ts; §3). -/
inductive EnforcementMode where
  | disabled
  | softEnforce
  | hardEnforce
  deriving DecidableEq, Repr

/-- Modelled from the spec: the `HookConfig` fields the decision
algorithm touches (§3). -/
structure HookConfig where
  enforcementMode : EnforcementMode
  totalTransfersChecked : Nat
  highValueTransfersDetected : Nat
  deriving DecidableEq, Repr

/-- Outcome of one transfer check. -/
inductive TransferDecision where
  | admitted
  | rejected (err : QuresisError)
  deriving DecidableEq, Repr

/-- Effective threshold of §4.2 step 3: the sender's `thresholdAmount`
when registered, the global default otherwise. -/
def effectiveThreshold (sender : Option QuantumIdentity) : Nat :=
  match sender with
  | some r => r.thresholdAmount
  | none => defaultThresholdLamports

/-- Modelled from the spec: the canonical transfer-authorization message
of §4.2 (same byte layout the SDK builds, see `transfer_message_layout`). -/
def transferMessage (amount : Nat) (destination : List Nat) (sequence : Nat) : List Nat :=
  transferDomainTag ++ leEncode 8 amount ++ destination ++ leEncode 8 sequence

/-- Modelled from the spec: `execute_transfer_check` (§4.2), with the
Cross-Boundary Reader's result supplied as `sender` (`none` covers both
an absent account and a tag-mismatched one) and the external signature
primitive as `verifies`. Step 1 counts the transfer; step 3 admits below
the effective threshold; step 4 first counts the high-value detection and
then dispatches on the mode (the increment is retained on rejection per
step 5). In `hardEnforce`, a frozen sender is rejected unconditionally,
before the proof is examined. -/
def execute_transfer_check (cfg : HookConfig) (sender : Option QuantumIdentity)
    (verifies : List Nat → List Nat → List Nat → Bool)
    (amount : Nat) (destination : List Nat) (proof : Option (List Nat)) :
    HookConfig × TransferDecision :=
  let cfg1 := { cfg with totalTransfersChecked := cfg.totalTransfersChecked + 1 }
  if amount < effectiveThreshold sender then (cfg1, .admitted)
  else
    let cfg2 := { cfg1 with
      highValueTransfersDetected := cfg1.highValueTransfersDetected + 1 }
    match cfg.enforcementMode with
    | .disabled => (cfg2, .admitted)
    | .softEnforce => (cfg2, .admitted)
    | .hardEnforce =>
      match sender with
      | none => (cfg2, .rejected .quantumSignatureRequired)
      | some r =>
        if r.isFrozen then (cfg2, .rejected .identityFrozen)
        else
          match proof with
          | none => (cfg2, .rejected .quantumSignatureRequired)
          | some p =>
            if verifies r.pqcPublicKey (transferMessage amount destination r.sequence) p then
              (cfg2, .admitted)
            else (cfg2, .rejected .quantumSignatureRequired)

theorem leEncode_length (w n : Nat) : (leEncode w n).length = w := by
  induction w generalizing n with
  | zero => rfl
  | succ w ih => simp [leEncode, ih]

theorem leDecode_leEncode {w n : Nat} (h : n < 256 ^ w) : leDecode (leEncode w n) = n := by
  induction w generalizing n with
  | zero =>
      have h0 : n = 0 := by simpa using h
      simp [leEncode, leDecode, h0]
  | succ w ih =>
      have hdiv : n / 256 < 256 ^ w := by
        rw [Nat.div_lt_iff_lt_mul (by norm_num)]
        calc n < 256 ^ (w + 1) := h
        _ = 256 ^ w * 256 := by ring
      simp [leEncode, leDecode, ih hdiv, Nat.mod_add_div]

/-- Writing `src` right after a committed region `a` into zero padding
keeps `a`, places `src`, and leaves the remaining padding. -/
theorem setBytes_pad (a src : List Nat) (m : Nat) :
    setBytes (a ++ List.replicate m 0) src a.length =
      a ++ src ++ List.replicate (m - src.length) 0 := by
  unfold setBytes
  rw [List.take_left, List.drop_append, List.drop_replicate]

theorem setBytes_pad_zero (src : List Nat) (m : Nat) :
    setBytes (List.replicate m 0) src 0 = src ++ List.replicate (m - src.length) 0 := by
  simpa using setBytes_pad [] src m

/-- Writing three segments at their cumulative offsets into a zeroed
buffer of the exact total size concatenates them. -/
theorem setBytes_build3 (p s k : List Nat) :
    setBytes (setBytes (setBytes (List.replicate (p.length + s.length + k.length) 0) p 0)
        s p.length) k (p.length + s.length) = p ++ s ++ k := by
  have e1 : setBytes (List.replicate (p.length + s.length + k.length) 0) p 0
      = p ++ List.replicate (s.length + k.length) 0 := by
    rw [setBytes_pad_zero,
      show p.length + s.length + k.length - p.length = s.length + k.length from by omega]
  have e2 : setBytes (p ++ List.replicate (s.length + k.length) 0) s p.length
      = p ++ s ++ List.replicate k.length 0 := by
    rw [setBytes_pad, show s.length + k.length - s.length = k.length from by omega]
  have e3 : setBytes (p ++ s ++ List.replicate k.length 0) k (p.length + s.length)
      = p ++ s ++ k := by
    rw [show p.length + s.length = (p ++ s).length from (List.length_append p s).symm,
      setBytes_pad, Nat.sub_self, List.replicate_zero, List.append_nil]
  rw [e1, e2, e3]

/-- Writing four segments at their cumulative offsets into a zeroed
buffer of the exact total size concatenates them. -/
theorem setBytes_build4 (p a d s : List Nat) :
    setBytes (setBytes (setBytes (setBytes
        (List.replicate (p.length + a.length + d.length + s.length) 0) p 0)
        a p.length) d (p.length + a.length)) s (p.length + a.length + d.length)
      = p ++ a ++ d ++ s := by
  have e1 : setBytes (List.replicate (p.length + a.length + d.length + s.length) 0) p 0
      = p ++ List.replicate (a.length + d.length + s.length) 0 := by
    rw [setBytes_pad_zero, show p.length + a.length + d.length + s.length - p.length =
      a.length + d.length + s.length from by omega]
  have e2 : setBytes (p ++ List.replicate (a.length + d.length + s.length) 0) a p.length
      = p ++ a ++ List.replicate (d.length + s.length) 0 := by
    rw [setBytes_pad, show a.length + d.length + s.length - a.length =
      d.length + s.length from by omega]
  have e3 : setBytes (p ++ a ++ List.replicate (d.length + s.length) 0) d
      (p.length + a.length) = p ++ a ++ d ++ List.replicate s.length 0 := by
    rw [show p.length + a.length = (p ++ a).length from (List.length_append p a).symm,
      setBytes_pad, show d.length + s.length - d.length = s.length from by omega]
  have e4 : setBytes (p ++ a ++ d ++ List.replicate s.length 0) s
      (p.length + a.length + d.length) = p ++ a ++ d ++ s := by
    rw [show p.length + a.length + d.length = (p ++ a ++ d).length from by
        rw [List.length_append, List.length_append],
      setBytes_pad, Nat.sub_self, List.replicate_zero, List.append_nil]
  rw [e1, e2, e3, e4]

/-- Claim C3: for every new key byte sequence and every 64-bit sequence
value, the key-rotation authorization message is exactly the fixed
domain-separation tag, then the 8-byte little-endian sequence, then the
new key material, in that order. -/
theorem rotation_message_layout (newPublicKey : List Nat) (sequence : Nat)
    (h : sequence < 2 ^ 64) :
    createRotationMessage newPublicKey sequence =
      rotationDomainTag ++ leEncode 8 sequence ++ newPublicKey := by
  simp only [createRotationMessage, Nat.mod_eq_of_lt h]
  exact setBytes_build3 rotationDomainTag (leEncode 8 sequence) newPublicKey

/-- Witness for claim C3 at a concrete key and sequence. -/
theorem rotation_message_layout_witness :
    createRotationMessage [7, 9] 258 =
      rotationDomainTag ++ [2, 1, 0, 0, 0, 0, 0, 0] ++ [7, 9] := by
  have := rotation_message_layout [7, 9] 258 (by norm_num)
  simpa [leEncode] using this

/-- Claim C7: for every transfer amount, destination, and sequence, the
transfer-authorization message is exactly the fixed domain-separation
tag, the 8-byte little-endian amount, the destination bytes, and the
8-byte little-endian sequence, in that order. -/
theorem transfer_message_layout (amount : Nat) (destination : List Nat) (sequence : Nat)
    (hamount : amount < 2 ^ 64) (hsequence : sequence < 2 ^ 64) :
    createTransferMessage amount destination sequence =
      transferDomainTag ++ leEncode 8 amount ++ destination ++ leEncode 8 sequence := by
  simp only [createTransferMessage, Nat.mod_eq_of_lt hamount, Nat.mod_eq_of_lt hsequence]
  exact setBytes_build4 transferDomainTag (leEncode 8 amount) destination (leEncode 8 sequence)

/-- Witness for claim C7 at a concrete amount, destination and sequence. -/
theorem transfer_message_layout_witness :
    createTransferMessage 5 [3, 4] 1 =
      transferDomainTag ++ [5, 0, 0, 0, 0, 0, 0, 0] ++ [3, 4] ++ [1, 0, 0, 0, 0, 0, 0, 0] := by
  have := transfer_message_layout 5 [3, 4] 1 (by norm_num) (by norm_num)
  simpa [leEncode] using this

/-- Fixed-width read of a region laid out at a known offset: if the buffer
splits as `pre ++ (mid ++ post)` with `pre` of length `off` and `mid` of
width `w`, the read returns `mid`'s little-endian value. -/
theorem readUIntLE_extract {data pre mid post : List Nat} {off w : Nat}
    (h : data = pre ++ (mid ++ post)) (hpre : pre.length = off) (hmid : mid.length = w) :
    readUIntLE data off w = .ok (leDecode mid) := by
  subst h
  subst hpre
  subst hmid
  unfold readUIntLE
  rw [if_pos (by simp only [List.length_append]; omega)]
  rw [List.drop_left, List.take_left]

/-- A buffer strictly shorter than the 80-byte fixed region makes one of
the fixed-width reads throw. -/
theorem parseQuantumIdentity_short {data : List Nat} (h : data.length < 80) :
    parseQuantumIdentity data = .error .outOfRange := by
  unfold parseQuantumIdentity readInt64LE readUIntLE
  split_ifs <;> first | rfl | omega

/-- A buffer of at least 80 bytes always parses, whatever its bytes. -/
theorem parseQuantumIdentity_long {data : List Nat} (h : 80 ≤ data.length) :
    (parseQuantumIdentity data).isOk = true := by
  have c1 : 41 + 8 ≤ data.length := by omega
  have c2 : 49 + 8 ≤ data.length := by omega
  have c3 : 57 + 8 ≤ data.length := by omega
  have c4 : 66 + 8 ≤ data.length := by omega
  have c5 : 74 + 2 ≤ data.length := by omega
  have c6 : 76 + 4 ≤ data.length := by omega
  simp [parseQuantumIdentity, readInt64LE, readUIntLE, c1, c2, c3, c4, c5, c6, Except.isOk,
    Except.toBool, Except.map]

/-- Claim C1, counterexample: the SDK identity reader does not behave as
claimed. A non-empty 10-byte buffer (shorter than the fixed region)
makes it raise an out-of-range error instead of returning `none`; and two
80-byte buffers whose 8-byte type tags differ from each other (so at
least one differs from any expected tag) both parse to a record rather
than `none` — no tag comparison is performed before field access. -/
theorem identity_reader_counterexample :
    getIdentity (some (List.replicate 10 1)) = .error .outOfRange ∧
    (List.replicate 10 1).length < 80 ∧
    getIdentity (some (List.replicate 8 255 ++ List.replicate 72 0)) ≠ .ok none ∧
    (getIdentity (some (List.replicate 8 255 ++ List.replicate 72 0))).isOk = true ∧
    getIdentity (some (List.replicate 80 0)) ≠ .ok none ∧
    (getIdentity (some (List.replicate 80 0))).isOk = true ∧
    (List.replicate 8 255 ++ List.replicate 72 0).take 8 ≠ (List.replicate 80 0).take 8 := by
  have hA : getIdentity (some (List.replicate 8 255 ++ List.replicate 72 0)) =
      .ok (some ⟨List.replicate 32 0, 0, 0, 0, 0, false, 0, 0, []⟩) := by rfl
  have hB : getIdentity (some (List.replicate 80 0)) =
      .ok (some ⟨List.replicate 32 0, 0, 0, 0, 0, false, 0, 0, []⟩) := by rfl
  refine ⟨by rfl, by decide, ?_, ?_, ?_, ?_, by decide⟩
  · rw [hA]
    simp
  · rw [hA]
    rfl
  · rw [hB]
    simp
  · rw [hB]
    rfl

/-- Claim C1 (amended): the SDK identity reader returns "absent" exactly
when the account is missing or its data is empty; it never compares the
8-byte type tag (a buffer of at least 80 bytes parses successfully
whatever its first 8 bytes are), and a non-empty buffer shorter than the
80-byte fixed-size region raises an out-of-range error rather than
returning "absent". -/
theorem identity_reader_amended :
    getIdentity none = .ok none ∧
    ∀ data : List Nat,
      (getIdentity (some data) = .ok none ↔ data = []) ∧
      ((parseQuantumIdentity data).isOk = true ↔ 80 ≤ data.length) := by
  refine ⟨rfl, fun data => ⟨⟨?_, ?_⟩, ⟨?_, ?_⟩⟩⟩
  · intro h
    rcases data with _ | ⟨b, bs⟩
    · rfl
    · exfalso
      have hne : getIdentity (some (b :: bs)) = (parseQuantumIdentity (b :: bs)).map some := by
        simp [getIdentity]
      rw [hne] at h
      cases hp : parseQuantumIdentity (b :: bs) <;> rw [hp] at h <;> simp [Except.map] at h
  · intro h
    subst h
    rfl
  · intro h
    by_contra hlt
    push_neg at hlt
    rw [parseQuantumIdentity_short hlt] at h
    simp [Except.isOk, Except.toBool] at h
  · exact fun h => parseQuantumIdentity_long h

set_option maxRecDepth 2048

/-- Decoding a buffer assembled from abstract segments of the layout's
widths recovers each segment at its offset. -/
theorem parseQuantumIdentity_segments (tag auth bmp s l c f t v k m : List Nat)
    (htag : tag.length = 8) (hauth : auth.length = 32) (hbmp : bmp.length = 1)
    (hs : s.length = 8) (hl : l.length = 8) (hc : c.length = 8) (hf : f.length = 1)
    (ht : t.length = 8) (hv : v.length = 2) (hk : k.length = 4) :
    parseQuantumIdentity (tag ++ auth ++ bmp ++ s ++ l ++ c ++ f ++ t ++ v ++ k ++ m) =
      .ok { authority := auth
            bump := bmp.getD 0 0
            sequence := leDecode s
            lastActiveSlot := leDecode l
            createdAt := if leDecode c < 2 ^ 63 then (leDecode c : Int)
              else (leDecode c : Int) - 2 ^ 64
            isFrozen := f.getD 0 0 == 1
            thresholdAmount := leDecode t
            keyVersion := leDecode v
            pqcPublicKey := m.take (leDecode k) } := by
  have h41 : tag ++ auth ++ bmp ++ s ++ l ++ c ++ f ++ t ++ v ++ k ++ m =
      (tag ++ (auth ++ bmp)) ++ (s ++ (l ++ (c ++ (f ++ (t ++ (v ++ (k ++ m))))))) := by
    simp [List.append_assoc]
  have h49 : tag ++ auth ++ bmp ++ s ++ l ++ c ++ f ++ t ++ v ++ k ++ m =
      (tag ++ (auth ++ (bmp ++ s))) ++ (l ++ (c ++ (f ++ (t ++ (v ++ (k ++ m)))))) := by
    simp [List.append_assoc]
  have h57 : tag ++ auth ++ bmp ++ s ++ l ++ c ++ f ++ t ++ v ++ k ++ m =
      (tag ++ (auth ++ (bmp ++ (s ++ l)))) ++ (c ++ (f ++ (t ++ (v ++ (k ++ m))))) := by
    simp [List.append_assoc]
  have h66 : tag ++ auth ++ bmp ++ s ++ l ++ c ++ f ++ t ++ v ++ k ++ m =
      (tag ++ (auth ++ (bmp ++ (s ++ (l ++ (c ++ f)))))) ++ (t ++ (v ++ (k ++ m))) := by
    simp [List.append_assoc]
  have h74 : tag ++ auth ++ bmp ++ s ++ l ++ c ++ f ++ t ++ v ++ k ++ m =
      (tag ++ (auth ++ (bmp ++ (s ++ (l ++ (c ++ (f ++ t))))))) ++ (v ++ (k ++ m)) := by
    simp [List.append_assoc]
  have h76 : tag ++ auth ++ bmp ++ s ++ l ++ c ++ f ++ t ++ v ++ k ++ m =
      (tag ++ (auth ++ (bmp ++ (s ++ (l ++ (c ++ (f ++ (t ++ v)))))))) ++ (k ++ m) := by
    simp [List.append_assoc]
  have hr41 : readUIntLE (tag ++ auth ++ bmp ++ s ++ l ++ c ++ f ++ t ++ v ++ k ++ m) 41 8 =
      .ok (leDecode s) :=
    readUIntLE_extract h41 (by simp [htag, hauth, hbmp]) hs
  have hr49 : readUIntLE (tag ++ auth ++ bmp ++ s ++ l ++ c ++ f ++ t ++ v ++ k ++ m) 49 8 =
      .ok (leDecode l) :=
    readUIntLE_extract h49 (by simp [htag, hauth, hbmp, hs]) hl
  have hr57 : readInt64LE (tag ++ auth ++ bmp ++ s ++ l ++ c ++ f ++ t ++ v ++ k ++ m) 57 =
      .ok (if leDecode c < 2 ^ 63 then (leDecode c : Int) else (leDecode c : Int) - 2 ^ 64) := by
    rw [readInt64LE, readUIntLE_extract h57 (by simp [htag, hauth, hbmp, hs, hl]) hc]
    simp [Except.map]
  have hr66 : readUIntLE (tag ++ auth ++ bmp ++ s ++ l ++ c ++ f ++ t ++ v ++ k ++ m) 66 8 =
      .ok (leDecode t) :=
    readUIntLE_extract h66 (by simp [htag, hauth, hbmp, hs, hl, hc, hf]) ht
  have hr74 : readUIntLE (tag ++ auth ++ bmp ++ s ++ l ++ c ++ f ++ t ++ v ++ k ++ m) 74 2 =
      .ok (leDecode v) :=
    readUIntLE_extract h74 (by simp [htag, hauth, hbmp, hs, hl, hc, hf, ht]) hv
  have hr76 : readUIntLE (tag ++ auth ++ bmp ++ s ++ l ++ c ++ f ++ t ++ v ++ k ++ m) 76 4 =
      .ok (leDecode k) :=
    readUIntLE_extract h76 (by simp [htag, hauth, hbmp, hs, hl, hc, hf, ht, hv]) hk
  have hA : (((tag ++ auth ++ bmp ++ s ++ l ++ c ++ f ++ t ++ v ++ k ++ m).drop 8).take 32)
      = auth := by
    have hsplit : tag ++ auth ++ bmp ++ s ++ l ++ c ++ f ++ t ++ v ++ k ++ m =
        tag ++ (auth ++ (bmp ++ (s ++ (l ++ (c ++ (f ++ (t ++ (v ++ (k ++ m))))))))) := by
      simp [List.append_assoc]
    rw [hsplit, List.drop_left' htag, List.take_left' hauth]
  have hBump : (tag ++ auth ++ bmp ++ s ++ l ++ c ++ f ++ t ++ v ++ k ++ m).getD 40 0
      = bmp.getD 0 0 := by
    have hsplit : tag ++ auth ++ bmp ++ s ++ l ++ c ++ f ++ t ++ v ++ k ++ m =
        (tag ++ auth) ++ (bmp ++ (s ++ (l ++ (c ++ (f ++ (t ++ (v ++ (k ++ m)))))))) := by
      simp [List.append_assoc]
    have hlen : (tag ++ auth).length = 40 := by simp [htag, hauth]
    rw [hsplit, List.getD_append_right _ _ _ _ (le_of_eq hlen), hlen, Nat.sub_self]
    exact List.getD_append _ _ _ _ (by omega)
  have hFroz : (tag ++ auth ++ bmp ++ s ++ l ++ c ++ f ++ t ++ v ++ k ++ m).getD 65 0
      = f.getD 0 0 := by
    have hsplit : tag ++ auth ++ bmp ++ s ++ l ++ c ++ f ++ t ++ v ++ k ++ m =
        (tag ++ (auth ++ (bmp ++ (s ++ (l ++ c))))) ++ (f ++ (t ++ (v ++ (k ++ m)))) := by
      simp [List.append_assoc]
    have hlen : (tag ++ (auth ++ (bmp ++ (s ++ (l ++ c))))).length = 65 := by
      simp [htag, hauth, hbmp, hs, hl, hc]
    rw [hsplit, List.getD_append_right _ _ _ _ (le_of_eq hlen), hlen, Nat.sub_self]
    exact List.getD_append _ _ _ _ (by omega)
  have hKey : (((tag ++ auth ++ bmp ++ s ++ l ++ c ++ f ++ t ++ v ++ k ++ m).drop 80).take
      (leDecode k)) = m.take (leDecode k) := by
    have hsplit : tag ++ auth ++ bmp ++ s ++ l ++ c ++ f ++ t ++ v ++ k ++ m =
        (tag ++ (auth ++ (bmp ++ (s ++ (l ++ (c ++ (f ++ (t ++ (v ++ k))))))))) ++ m := by
      simp [List.append_assoc]
    have hlen : (tag ++ (auth ++ (bmp ++ (s ++ (l ++ (c ++ (f ++ (t ++ (v ++ k))))))))).length
        = 80 := by
      simp [htag, hauth, hbmp, hs, hl, hc, hf, ht, hv, hk]
    rw [hsplit, List.drop_left' hlen]
  rw [parseQuantumIdentity.eq_def, hr41, hr49, hr57, hr66, hr74, hr76]
  simp only [hA, hBump, hFroz, hKey]

/-- Claim C2: for every well-formed IdentityRecord buffer — assembled at
the spec's fixed little-endian offsets (`[0:8)` tag, `[8:40)` authority,
`[40:41)` bump, `[41:49)` sequence, `[49:57)` lastActiveSlot, `[57:65)`
createdAt, `[65:66)` isFrozen, `[66:74)` thresholdAmount, `[74:76)`
keyVersion, `[76:80)` keyMaterial length, `[80:80+len)` keyMaterial) from
in-range field values — the decoder returns exactly those field values. -/
theorem identity_layout_decode (tag authority : List Nat) (bump sequence lastActiveSlot : Nat)
    (createdAt : Int) (isFrozen : Bool) (thresholdAmount keyVersion : Nat)
    (keyMaterial : List Nat) (htag : tag.length = 8) (hauth : authority.length = 32)
    (hseq : sequence < 2 ^ 64) (hlas : lastActiveSlot < 2 ^ 64)
    (hca1 : -(2 ^ 63) ≤ createdAt) (hca2 : createdAt < 2 ^ 63)
    (hthr : thresholdAmount < 2 ^ 64) (hkv : keyVersion < 2 ^ 16)
    (hkm : keyMaterial.length < 2 ^ 32) :
    parseQuantumIdentity (layoutEncode tag authority bump sequence lastActiveSlot createdAt
        isFrozen thresholdAmount keyVersion keyMaterial) =
      .ok { authority := authority
            bump := bump
            sequence := sequence
            lastActiveSlot := lastActiveSlot
            createdAt := createdAt
            isFrozen := isFrozen
            thresholdAmount := thresholdAmount
            keyVersion := keyVersion
            pqcPublicKey := keyMaterial } := by
  have e64 : (256 : Nat) ^ 8 = 2 ^ 64 := by norm_num
  have e16 : (256 : Nat) ^ 2 = 2 ^ 16 := by norm_num
  have e32 : (256 : Nat) ^ 4 = 2 ^ 32 := by norm_num
  have hstep := parseQuantumIdentity_segments tag authority [bump]
    (leEncode 8 sequence) (leEncode 8 lastActiveSlot)
    (leEncode 8 (createdAt.emod (2 ^ 64)).toNat) [if isFrozen then 1 else 0]
    (leEncode 8 thresholdAmount) (leEncode 2 keyVersion) (leEncode 4 keyMaterial.length)
    keyMaterial htag hauth rfl (leEncode_length _ _) (leEncode_length _ _)
    (leEncode_length _ _) rfl (leEncode_length _ _) (leEncode_length _ _) (leEncode_length _ _)
  have dseq : leDecode (leEncode 8 sequence) = sequence := leDecode_leEncode (e64 ▸ hseq)
  have dlas : leDecode (leEncode 8 lastActiveSlot) = lastActiveSlot :=
    leDecode_leEncode (e64 ▸ hlas)
  have dthr : leDecode (leEncode 8 thresholdAmount) = thresholdAmount :=
    leDecode_leEncode (e64 ▸ hthr)
  have dkv : leDecode (leEncode 2 keyVersion) = keyVersion := leDecode_leEncode (e16 ▸ hkv)
  have dkl : leDecode (leEncode 4 keyMaterial.length) = keyMaterial.length :=
    leDecode_leEncode (e32 ▸ hkm)
  have hnn : 0 ≤ createdAt.emod (2 ^ 64) := Int.emod_nonneg _ (by norm_num)
  have hub : createdAt.emod (2 ^ 64) < 2 ^ 64 := Int.emod_lt_of_pos _ (by norm_num)
  have hqr : createdAt.emod (2 ^ 64) + 2 ^ 64 * (createdAt.ediv (2 ^ 64)) = createdAt :=
    Int.emod_add_ediv createdAt (2 ^ 64)
  have dca : leDecode (leEncode 8 (createdAt.emod (2 ^ 64)).toNat) =
      (createdAt.emod (2 ^ 64)).toNat := by
    refine leDecode_leEncode ?_
    rw [e64]
    omega
  have dsigned : (if (createdAt.emod (2 ^ 64)).toNat < 2 ^ 63
      then ((createdAt.emod (2 ^ 64)).toNat : Int)
      else ((createdAt.emod (2 ^ 64)).toNat : Int) - 2 ^ 64) = createdAt := by
    split_ifs with hlt
    · omega
    · omega
  have dfroz : ((if isFrozen then (1 : Nat) else 0) == 1) = isFrozen := by
    cases isFrozen <;> rfl
  rw [layoutEncode, hstep]
  simp only [List.getD_cons_zero, dseq, dlas, dca, dsigned, dthr, dkv, dfroz, dkl,
    List.take_length]

/-- Witness for claim C2 at a concrete record. -/
theorem identity_layout_decode_witness :
    parseQuantumIdentity (layoutEncode [1, 2, 3, 4, 5, 6, 7, 8] (List.replicate 32 9) 5 3 4
        (-2) true 100 9 [10, 20]) =
      .ok ⟨List.replicate 32 9, 5, 3, 4, -2, true, 100, 9, [10, 20]⟩ :=
  identity_layout_decode [1, 2, 3, 4, 5, 6, 7, 8] (List.replicate 32 9) 5 3 4 (-2) true 100 9
    [10, 20] (by decide) (by simp) (by norm_num) (by norm_num) (by decide) (by decide)
    (by norm_num) (by norm_num) (by decide)

theorem hexVal_hexDigit : ∀ n < 16, hexVal (hexDigit n) = some n := by decide

theorem hexDigit_ne_x : ∀ n < 16, hexDigit n ≠ 'x' := by decide

/-- Parsing the hex chunks of an encoded byte list recovers the bytes. -/
theorem hexPairs_bufferToHex : ∀ bs : List Nat, (∀ b ∈ bs, b < 256) →
    hexPairs (bufferToHex bs) = bs := by
  intro bs
  induction bs with
  | nil => intro _; rfl
  | cons b bs ih =>
      intro h
      have hb : b < 256 := h b (List.mem_cons_self b bs)
      have h1 : b / 16 < 16 := by omega
      have h2 : b % 16 < 16 := by omega
      have e1 : hexVal (hexDigit (b / 16)) = some (b / 16) := hexVal_hexDigit _ h1
      have e2 : hexVal (hexDigit (b % 16)) = some (b % 16) := hexVal_hexDigit _ h2
      have etail := ih (fun x hx => h x (List.mem_cons_of_mem _ hx))
      simp [bufferToHex, hexPairs, parseIntPair, e1, e2, etail]
      omega

/-- An encoded byte list never starts with the `0x` marker: its second
character is a hex digit, never `x`. -/
theorem bufferToHex_no_marker (bs : List Nat) (h : ∀ b ∈ bs, b < 256) :
    hexToBuffer (bufferToHex bs) = hexPairs (bufferToHex bs) := by
  unfold hexToBuffer
  cases bs with
  | nil => rfl
  | cons b bs =>
      have hb : b < 256 := h b (List.mem_cons_self b bs)
      rw [if_neg]
      intro hx
      simp only [bufferToHex, List.take_cons] at hx
      have : hexDigit (b % 16) = 'x' := by
        have := congrArg (fun l => l.getD 1 'q') hx
        simpa using this
      exact hexDigit_ne_x (b % 16) (by omega) this

/-- Claim C9: `hexToBuffer` inverts `bufferToHex` on every byte list, and
restoring a keypair from its serialized form is a round trip preserving
the variant, the public key bytes, the secret key bytes, and the
creation timestamp. -/
theorem keypair_serialize_roundtrip :
    (∀ bs : List Nat, (∀ b ∈ bs, b < 256) → hexToBuffer (bufferToHex bs) = bs) ∧
    (∀ (kp : QuresisKeyPair) (label : Option (List Char)), kp.WF →
      QuresisKeyPair.fromSerialized (kp.serialize label) = .ok kp) := by
  have hinv : ∀ bs : List Nat, (∀ b ∈ bs, b < 256) → hexToBuffer (bufferToHex bs) = bs :=
    fun bs h => (bufferToHex_no_marker bs h).trans (hexPairs_bufferToHex bs h)
  refine ⟨hinv, fun kp label hwf => ?_⟩
  obtain ⟨hpk, hsk, hpkb, hskb⟩ := hwf
  unfold QuresisKeyPair.fromSerialized QuresisKeyPair.serialize QuresisKeyPair.create
  simp only [hinv kp.publicKey hpkb, hinv kp.secretKey hskb]
  rw [if_neg (by simp [hpk]), if_neg (by simp [hsk])]

/-- Witness for claim C9 at a concrete byte list and a concrete keypair. -/
theorem keypair_serialize_roundtrip_witness :
    hexToBuffer (bufferToHex [0, 171, 255]) = [0, 171, 255] ∧
    QuresisKeyPair.fromSerialized
        (QuresisKeyPair.serialize
          ⟨.mldsa44, List.replicate 1312 7, List.replicate 2560 8, 99⟩ none) =
      .ok ⟨.mldsa44, List.replicate 1312 7, List.replicate 2560 8, 99⟩ := by
  constructor
  · exact keypair_serialize_roundtrip.1 [0, 171, 255] (by decide)
  · refine keypair_serialize_roundtrip.2 _ none
      ⟨by simp only [List.length_replicate, publicKeySize],
       by simp only [List.length_replicate, secretKeySize], ?_, ?_⟩
    · intro b hb
      rw [List.eq_of_mem_replicate hb]
      norm_num
    · intro b hb
      rw [List.eq_of_mem_replicate hb]
      norm_num

/-- Claim C10: the register-identity instruction data always carries the
`Some` variant (tag byte 1) for the optional threshold, with the caller's
threshold or the 100 SOL default as payload — the on-chain
default-threshold path is unreachable through this builder. -/
theorem register_instruction_some_threshold (pqcPublicKey : List Nat) (threshold : Option Nat)
    (hthr : threshold.getD defaultThresholdLamports < 2 ^ 64)
    (hkey : pqcPublicKey.length < 2 ^ 32) :
    buildRegisterIdentityData pqcPublicKey threshold =
      some (registerIdentityDisc ++ leEncode 4 pqcPublicKey.length ++ pqcPublicKey ++
        (1 :: leEncode 8 (threshold.getD defaultThresholdLamports))) := by
  have s1 : setBytes [0, 0, 0, 0, 0, 0, 0, 0, 0] [1] 0 = [1, 0, 0, 0, 0, 0, 0, 0, 0] := by rfl
  have s2 : setBytes [1, 0, 0, 0, 0, 0, 0, 0, 0]
      (leEncode 8 (threshold.getD defaultThresholdLamports)) 1 =
      1 :: leEncode 8 (threshold.getD defaultThresholdLamports) := by
    have h := setBytes_pad [1] (leEncode 8 (threshold.getD defaultThresholdLamports)) 8
    simp [leEncode_length] at h
    exact h
  have s3 : setBytes [0, 0, 0, 0] (leEncode 4 pqcPublicKey.length) 0 =
      leEncode 4 pqcPublicKey.length := by
    have h := setBytes_pad_zero (leEncode 4 pqcPublicKey.length) 4
    simp [leEncode_length] at h
    exact h
  simp [buildRegisterIdentityData, writeUInt8, writeBigUInt64LE, writeUInt32LE, s1, s2, s3,
    hthr, hkey]
  rw [if_pos (show threshold.getD defaultThresholdLamports < 18446744073709551616 from
    by omega)]
  rw [if_pos (show pqcPublicKey.length < 4294967296 from by omega)]

/-- Witness for claim C10 at a concrete key with and without a caller
threshold. -/
theorem register_instruction_some_threshold_witness :
    buildRegisterIdentityData [7, 9] none =
      some (registerIdentityDisc ++ leEncode 4 2 ++ [7, 9] ++
        (1 :: leEncode 8 defaultThresholdLamports)) ∧
    buildRegisterIdentityData [7, 9] (some 5) =
      some (registerIdentityDisc ++ leEncode 4 2 ++ [7, 9] ++ (1 :: leEncode 8 5)) := by
  constructor
  · exact register_instruction_some_threshold [7, 9] none (by decide) (by decide)
  · exact register_instruction_some_threshold [7, 9] (some 5) (by decide) (by decide)

/-- Claim C4: the spec-modelled `register_identity` succeeds exactly on
key lengths 1312 and 1952 and otherwise fails with `InvalidKeyLength`
while creating no record, and the SDK keypair constructor accepts
precisely the variant key sizes, which are those same two numbers. -/
theorem register_identity_key_length :
    (∀ (keyMaterial : List Nat) (threshold : Option Nat),
        (register_identity keyMaterial threshold).isOk = true ↔
          keyMaterial.length = 1312 ∨ keyMaterial.length = 1952) ∧
    (∀ (keyMaterial : List Nat) (threshold : Option Nat),
        keyMaterial.length ≠ 1312 → keyMaterial.length ≠ 1952 →
          register_identity keyMaterial threshold = .error .invalidKeyLength) ∧
    (∀ (variant : MLDSAVariant) (pk sk : List Nat) (c : Int),
        (QuresisKeyPair.create variant pk sk c).isOk = true →
          pk.length = 1312 ∨ pk.length = 1952) ∧
    (∀ (variant : MLDSAVariant) (pk sk : List Nat) (c : Int),
        pk.length = publicKeySize variant → sk.length = secretKeySize variant →
          (QuresisKeyPair.create variant pk sk c).isOk = true) ∧
    (∀ variant : MLDSAVariant, publicKeySize variant = 1312 ∨ publicKeySize variant = 1952) := by
  refine ⟨fun k t => ?_, fun k t h1 h2 => ?_, fun v pk sk c h => ?_,
    fun v pk sk c h1 h2 => ?_, fun v => ?_⟩
  · unfold register_identity
    split_ifs with h
    · constructor
      · intro _
        simpa [supportedKeySizes] using h
      · intro _
        rfl
    · constructor
      · intro hh
        simp [Except.isOk, Except.toBool] at hh
      · intro hor
        exact absurd (by simpa [supportedKeySizes] using hor) h
  · unfold register_identity
    rw [if_neg]
    simp [supportedKeySizes, h1, h2]
  · unfold QuresisKeyPair.create at h
    split_ifs at h with hpk hsk
    · simp [Except.isOk, Except.toBool] at h
    · simp [Except.isOk, Except.toBool] at h
    · have hpk' : pk.length = publicKeySize v := not_ne_iff.mp hpk
      cases v
      · exact Or.inl (by simpa [publicKeySize] using hpk')
      · exact Or.inr (by simpa [publicKeySize] using hpk')
  · unfold QuresisKeyPair.create
    rw [if_neg (by simp [h1]), if_neg (by simp [h2])]
    rfl
  · cases v
    · exact Or.inl rfl
    · exact Or.inr rfl

/-- Witness for claim C4 at the two supported sizes and two rejected
sizes. -/
theorem register_identity_key_length_witness :
    (register_identity (List.replicate 1312 0) none).isOk = true ∧
    (register_identity (List.replicate 1952 0) none).isOk = true ∧
    register_identity (List.replicate 100 0) none = .error .invalidKeyLength ∧
    register_identity [] none = .error .invalidKeyLength ∧
    (QuresisKeyPair.create .mldsa44 (List.replicate 1312 0) (List.replicate 2560 0) 0).isOk
      = true := by
  refine ⟨?_, ?_, ?_, ?_, ?_⟩
  · exact (register_identity_key_length.1 _ none).mpr
      (Or.inl (by simp only [List.length_replicate]))
  · exact (register_identity_key_length.1 _ none).mpr
      (Or.inr (by simp only [List.length_replicate]))
  · exact register_identity_key_length.2.1 _ none
      (by simp only [List.length_replicate]; norm_num)
      (by simp only [List.length_replicate]; norm_num)
  · exact register_identity_key_length.2.1 _ none (by simp) (by simp)
  · exact register_identity_key_length.2.2.2.1 _ _ _ 0
      (by simp only [List.length_replicate, publicKeySize])
      (by simp only [List.length_replicate, secretKeySize])

/-- Claim C5: on an Active (unfrozen) record, the spec-modelled
`rotate_key` with the current sequence and a proof verifying against the
pre-rotation key replaces the key material and increments `sequence` and
`keyVersion` by exactly 1; with any other `expectedSequence` it fails
with `SequenceMismatch` and the stored record is unchanged. -/
theorem rotate_key_behavior (record : IdentityRecord)
    (verifies : List Nat → List Nat → List Nat → Bool)
    (newKeyMaterial proofSignature : List Nat)
    (hactive : record.isFrozen = false) :
    (newKeyMaterial.length ∈ supportedKeySizes →
      verifies record.keyMaterial (rotationMessage record.sequence newKeyMaterial)
          proofSignature = true →
      rotate_key record verifies newKeyMaterial proofSignature record.sequence =
        .ok { record with
              keyMaterial := newKeyMaterial
              sequence := record.sequence + 1
              keyVersion := record.keyVersion + 1 }) ∧
    (∀ expectedSequence, expectedSequence ≠ record.sequence →
      rotate_key record verifies newKeyMaterial proofSignature expectedSequence =
        .error .sequenceMismatch ∧
      rotateKeyResultState record verifies newKeyMaterial proofSignature expectedSequence =
        record) := by
  constructor
  · intro hlen hver
    unfold rotate_key
    rw [if_neg (by simp [hactive]), if_neg (by simp), if_neg (by simp [hlen]), if_pos hver]
  · intro expectedSequence hne
    have hrot : rotate_key record verifies newKeyMaterial proofSignature expectedSequence =
        .error .sequenceMismatch := by
      unfold rotate_key
      rw [if_neg (by simp [hactive]), if_pos hne]
    refine ⟨hrot, ?_⟩
    unfold rotateKeyResultState
    rw [hrot]

/-- Witness for claim C5: a concrete rotation that succeeds at the
current sequence and fails with `SequenceMismatch` at a stale one. -/
theorem rotate_key_behavior_witness :
    rotate_key ⟨List.replicate 1312 3, 5, 2, false, 1000⟩ (fun _ _ _ => true)
        (List.replicate 1952 4) [] 5 =
      .ok ⟨List.replicate 1952 4, 6, 3, false, 1000⟩ ∧
    rotate_key ⟨List.replicate 1312 3, 5, 2, false, 1000⟩ (fun _ _ _ => true)
        (List.replicate 1952 4) [] 4 = .error .sequenceMismatch ∧
    rotateKeyResultState ⟨List.replicate 1312 3, 5, 2, false, 1000⟩ (fun _ _ _ => true)
        (List.replicate 1952 4) [] 4 = ⟨List.replicate 1312 3, 5, 2, false, 1000⟩ := by
  have h := rotate_key_behavior ⟨List.replicate 1312 3, 5, 2, false, 1000⟩
    (fun _ _ _ => true) (List.replicate 1952 4) [] rfl
  refine ⟨h.1 ?_ rfl, (h.2 4 (by norm_num)).1, (h.2 4 (by norm_num)).2⟩
  simp only [List.length_replicate, supportedKeySizes]
  decide

/-- Claim C6: in `HardEnforce` mode, a transfer at or above the effective
threshold from a frozen sender is rejected with `IdentityFrozen` for
every accompanying proof, including one the primitive would verify. -/
theorem hard_enforce_frozen_rejected (cfg : HookConfig) (r : QuantumIdentity)
    (verifies : List Nat → List Nat → List Nat → Bool) (amount : Nat)
    (destination : List Nat) (proof : Option (List Nat))
    (hmode : cfg.enforcementMode = .hardEnforce) (hfrozen : r.isFrozen = true)
    (hamount : effectiveThreshold (some r) ≤ amount) :
    (execute_transfer_check cfg (some r) verifies amount destination proof).2 =
      .rejected .identityFrozen := by
  have hlt : ¬ amount < effectiveThreshold (some r) := by omega
  simp [execute_transfer_check, hmode, hfrozen, hlt]

/-- Witness for claim C6: a frozen sender, a high-value amount, and a
proof the primitive accepts, still rejected with `IdentityFrozen`. -/
theorem hard_enforce_frozen_rejected_witness :
    (execute_transfer_check ⟨.hardEnforce, 0, 0⟩
        (some ⟨[], 0, 0, 0, 0, true, 50, 0, []⟩) (fun _ _ _ => true) 100 [] (some [])).2 =
      .rejected .identityFrozen :=
  hard_enforce_frozen_rejected _ _ _ _ _ _ rfl rfl (by norm_num [effectiveThreshold])

/-- Claim C8, counterexample: in `Disabled` mode a transfer at the
default threshold is admitted, but `highValueTransfersDetected` moves
from 0 to 1 — §4.2 step 4 increments the counter before the mode
dispatch, contradicting "highValueTransfersDetected unaffected". -/
theorem disabled_mode_counterexample :
    (execute_transfer_check ⟨.disabled, 0, 0⟩ none (fun _ _ _ => true)
        defaultThresholdLamports [] none).2 = .admitted ∧
    (execute_transfer_check ⟨.disabled, 0, 0⟩ none (fun _ _ _ => true)
        defaultThresholdLamports [] none).1.highValueTransfersDetected = 1 := by
  constructor <;> rfl

/-- Claim C8 (amended): in `Disabled` mode every transfer is admitted for
every amount and proof state; `totalTransfersChecked` always increments,
and `highValueTransfersDetected` is unchanged below the effective
threshold but increments at or above it, exactly as §4.2 step 4
prescribes. -/
theorem disabled_mode_amended (cfg : HookConfig) (sender : Option QuantumIdentity)
    (verifies : List Nat → List Nat → List Nat → Bool) (amount : Nat)
    (destination : List Nat) (proof : Option (List Nat))
    (hmode : cfg.enforcementMode = .disabled) :
    (execute_transfer_check cfg sender verifies amount destination proof).2 = .admitted ∧
    (execute_transfer_check cfg sender verifies amount destination
        proof).1.totalTransfersChecked = cfg.totalTransfersChecked + 1 ∧
    (execute_transfer_check cfg sender verifies amount destination
        proof).1.highValueTransfersDetected =
      if effectiveThreshold sender ≤ amount then cfg.highValueTransfersDetected + 1
      else cfg.highValueTransfersDetected := by
  by_cases hlt : amount < effectiveThreshold sender
  · have hle : ¬ effectiveThreshold sender ≤ amount := by omega
    refine ⟨?_, ?_, ?_⟩ <;> simp [execute_transfer_check, hmode, hlt, hle]
  · have hle : effectiveThreshold sender ≤ amount := by omega
    refine ⟨?_, ?_, ?_⟩ <;> simp [execute_transfer_check, hmode, hlt, hle]

/-- Witness for claim C8 (amended) at a concrete low-value transfer in
`Disabled` mode: admitted, transfer counter up by one, high-value counter
untouched. -/
theorem disabled_mode_amended_witness :
    (execute_transfer_check ⟨.disabled, 3, 7⟩ none (fun _ _ _ => false) 0 [] none).2 =
      .admitted ∧
    (execute_transfer_check ⟨.disabled, 3, 7⟩ none (fun _ _ _ => false) 0 []
        none).1.totalTransfersChecked = 4 ∧
    (execute_transfer_check ⟨.disabled, 3, 7⟩ none (fun _ _ _ => false) 0 []
        none).1.highValueTransfersDetected = 7 := by
  have h := disabled_mode_amended ⟨.disabled, 3, 7⟩ none (fun _ _ _ => false) 0 [] none rfl
  refine ⟨h.1, h.2.1, ?_⟩
  rw [h.2.2]
  norm_num [effectiveThreshold, defaultThresholdLamports]
